import Mathlib

/-!
Verification of the first_mate torrent-management core.

Shallow embedding of the orchestration layer (`torrent_manager.py`,
`config.py`, the monitor loop of `server.py`, and the relevant adapter
surfaces of `qbittorrent_client.py` / `1337x.py`), together with proofs
of the spec's testable properties.

Modelling conventions:
- Python strings are Lean `String`; Python's substring test `a in b` is
  `containsSub b a` (a structural-recursion substring check on char lists).
- Python dict fields that are always produced by the scrapers are total
  structure fields; fields that can be `None` / absent are `Option`.
- `size_gb` values are `ℚ` (the code only ever compares sizes, it never
  computes with them, so rational comparison is faithful to float
  comparison on the values involved); the `max_size_gb` bound is
  `WithTop ℚ`, with `⊤` standing for Python's `float('inf')` default.
- The Python `set` blacklist is a `Finset String`; its persisted JSON
  document `{"hashes": [...]}` is the `List String` of its elements.
- Side effects on the download client and the stores are made visible as
  an explicit `Action` trace; an adapter exception is an explicit flag
  (for delete) or an `Except` result (for add), caught exactly where the
  Python code catches it.
- Python's stable `list.sort(key=..., reverse=True)` is
  `List.mergeSort` with the ≥-on-seeds comparator (both are stable sorts
  by the same key, hence extensionally equal).
-/

namespace FirstMate

/-- Is `pre` a prefix of `l`? (char-list version of Python `startswith`). -/
def listIsPre : List Char → List Char → Bool
  | [], _ => true
  | _ :: _, [] => false
  | a :: as, b :: bs => a == b && listIsPre as bs

/-- Does `hay` contain `needle` as a contiguous substring (char lists)? -/
def hasSubAux (needle : List Char) : List Char → Bool
  | [] => needle.isEmpty
  | c :: rest => listIsPre needle (c :: rest) || hasSubAux needle rest

/-- Python's `needle in hay` substring test on strings. -/
def containsSub (hay needle : String) : Bool :=
  hasSubAux needle.toList hay.toList

/-- Python's `str.lower()` (the data here is ASCII, where `Char.toLower`
agrees with Python's lowercasing). -/
def strLower (s : String) : String :=
  String.mk (s.data.map Char.toLower)

/-- The configurable settings used by the core (from `config.py`), with
the environment-dependent numeric knobs as fields. -/
structure Config where
  MIN_SEEDS : Nat
  MIN_DOWNLOAD_SPEED_KB : Nat
  ALLOWED_VIDEO_EXTENSIONS : List String
  EXCLUDED_EXTENSIONS : List String
  QUALITY_KEYWORDS : List (String × List String)

/-- The default values of `config.py` (no environment overrides). -/
def defaultConfig : Config :=
  { MIN_SEEDS := 1
    MIN_DOWNLOAD_SPEED_KB := 10
    ALLOWED_VIDEO_EXTENSIONS := [".mkv", ".mp4", ".avi", ".mov", ".wmv", ".flv"]
    EXCLUDED_EXTENSIONS := [".txt", ".nfo", ".jpg", ".png", ".srt", ".sub"]
    QUALITY_KEYWORDS :=
      [("720p", ["720p", "HD", "HDTV"]),
       ("1080p", ["1080p", "FHD", "Full HD", "FullHD"]),
       ("2160p", ["2160p", "4K", "UHD"]),
       ("480p", ["480p", "SD"])] }

/-- `Config.QUALITY_KEYWORDS.get(quality, [])`. -/
def qualityKeywordsFor (cfg : Config) (quality : String) : List String :=
  (((cfg.QUALITY_KEYWORDS.find? (fun p => p.1 == quality)).map Prod.snd).getD [])

/-- An observed active torrent as returned by
`QBittorrentClient.get_all_torrents` (the fields the monitor reads). -/
structure ActiveTorrent where
  hash : String
  name : String
  state : String
  dlspeed : Nat
  num_seeds : Nat
deriving DecidableEq

/-- `TorrentManager._should_retry_torrent` (torrent_manager.py:303-326):
the monitor's condemnation predicate. -/
def shouldRetryTorrent (cfg : Config) (t : ActiveTorrent) : Bool :=
  let state := strLower t.state
  let dlspeed := t.dlspeed
  let num_seeds := t.num_seeds
  if containsSub state "error" || containsSub state "missing" then true
  else if containsSub state "stalled" && dlspeed == 0 then true
  else if num_seeds < cfg.MIN_SEEDS then true
  else if decide (0 < dlspeed) && decide (dlspeed < cfg.MIN_DOWNLOAD_SPEED_KB * 1024) then true
  else false

/-- A normalized search result record as produced by the scrapers
(`Scraper1337x._parse_row` / `search_with_magnets` and the WatchSoMuch
analogue): `name`, `seeds`, `size_gb` are always present; `magnet_link`,
`hash` may be `None`; `files` may be absent (modelled as `[]`, matching
`result.get('files', [])`). -/
structure ResultRecord where
  name : String
  seeds : Nat
  size_gb : ℚ
  source : String
  magnet_link : Option String
  hash : Option String
  files : List String
deriving DecidableEq

/-- The size test of `TorrentManager._filter_results`
(torrent_manager.py:149-152): the record is dropped when
`size_gb < min_size_gb or size_gb > max_size_gb`; `⊤` is the
`float('inf')` default upper bound. -/
def sizeAccept (min_size_gb : ℚ) (max_size_gb : WithTop ℚ) (size_gb : ℚ) : Bool :=
  ! (decide (size_gb < min_size_gb) || decide (max_size_gb < (size_gb : WithTop ℚ)))

/-- The quality test of `_filter_results` (torrent_manager.py:154-159):
with a non-empty quality, some configured keyword must occur in the
lowercased name. -/
def qualityAccept (cfg : Config) (quality : String) (name : String) : Bool :=
  quality == "" ||
    (qualityKeywordsFor cfg quality).any (fun kw => containsSub (strLower name) (strLower kw))

/-- The dead `has_video_ext` computation of `_filter_results`
(torrent_manager.py:161-165): whether the lowercased name contains a
recognized media extension token. Computed by the code but never used to
drop a record. -/
def hasVideoExtName (cfg : Config) (name : String) : Bool :=
  cfg.ALLOWED_VIDEO_EXTENSIONS.any (fun ext => containsSub (strLower name) ext)

/-- The file-list test of `_filter_results` (torrent_manager.py:167-175):
only applied when `files` is non-empty; then some file name must contain
a recognized media extension. -/
def filesHaveVideo (cfg : Config) (files : List String) : Bool :=
  files.any (fun f => cfg.ALLOWED_VIDEO_EXTENSIONS.any (fun ext => containsSub (strLower f) ext))

/-- The per-record body of `TorrentManager._filter_results`
(torrent_manager.py:138-179): `true` iff the record is appended to the
filtered list. The unused `has_video_ext` value is reproduced as the
unused binding it is in the source. -/
def keepsRecord (cfg : Config) (quality : String) (min_size_gb : ℚ)
    (max_size_gb : WithTop ℚ) (r : ResultRecord) : Bool :=
  if ! sizeAccept min_size_gb max_size_gb r.size_gb then false
  else if ! qualityAccept cfg quality r.name then false
  else
    let _has_video_ext := hasVideoExtName cfg r.name
    if ! r.files.isEmpty && ! filesHaveVideo cfg r.files then false
    else true

/-- `TorrentManager._filter_results` on a list of records. -/
def filterResults (cfg : Config) (quality : String) (min_size_gb : ℚ)
    (max_size_gb : WithTop ℚ) (results : List ResultRecord) : List ResultRecord :=
  results.filter (keepsRecord cfg quality min_size_gb max_size_gb)

/-- The in-memory blacklist: a Python `set` of info-hash strings,
modelled as a list with set semantics (membership is the observable;
`setAdd` keeps it duplicate-free). -/
abbrev Blacklist := List String

/-- `set.add` on the blacklist. -/
def setAdd (bl : Blacklist) (h : String) : Blacklist :=
  if h ∈ bl then bl else bl ++ [h]

/-- `set.discard` on the blacklist (used by `remove_from_blacklist`,
torrent_manager.py:409-412). -/
def setDiscard (bl : Blacklist) (h : String) : Blacklist :=
  bl.filter (fun x => ! (x == h))

/-- `TorrentManager._save_blacklist` (torrent_manager.py:391-397): the
persisted JSON document is `{'hashes': list(self.blacklist)}`; this is
the value of its `hashes` field. -/
def saveBlacklistDoc (bl : Blacklist) : List String :=
  bl

/-- `TorrentManager._load_blacklist` (torrent_manager.py:379-389):
`set(data.get('hashes', []))` — the set built from the stored list. -/
def loadBlacklistDoc (doc : List String) : Blacklist :=
  doc.dedup

/-- The blacklist test of `search_torrents` (torrent_manager.py:127-130)
and `_find_and_add_alternative` (torrent_manager.py:338-341):
`r.get('hash') not in self.blacklist`. A missing/None hash is never a
member of the string set, so such records are kept. -/
def hashBlacklisted (bl : Blacklist) : Option String → Bool
  | some h => decide (h ∈ bl)
  | none => false

/-- Comparator for `filtered_results.sort(key=lambda x: x.get('seeds', 0),
reverse=True)`: descending by seeds. -/
def seedsDescLE (a b : ResultRecord) : Bool :=
  decide (b.seeds ≤ a.seeds)

/-- The pure tail of `TorrentManager.search_torrents`
(torrent_manager.py:118-136) applied to the merged pool accumulated from
the enabled scrapers: criteria filter, blacklist filter, then the stable
descending sort by seeds (Python's `list.sort` is stable; `mergeSort` is
the stable sort realizing it). -/
def searchTorrents (cfg : Config) (bl : Blacklist) (quality : String)
    (min_size_gb : ℚ) (max_size_gb : WithTop ℚ)
    (pool : List ResultRecord) : List ResultRecord :=
  let filtered := filterResults cfg quality min_size_gb max_size_gb pool
  let filtered2 := filtered.filter (fun r => ! hashBlacklisted bl r.hash)
  filtered2.mergeSort seedsDescLE

/-- The dictionary `QBittorrentClient.add_torrent` returns
(qbittorrent_client.py:95-114): `{'success': True, 'hash': …, 'name': …}`
or `{'success': False, …}`. -/
structure QbAddRes where
  success : Bool
  hash : Option String
  name : Option String
deriving DecidableEq

/-- One entry of the persisted history log, as built in
`TorrentManager.add_torrent` (torrent_manager.py:208-214). Timestamps are
abstract clock readings (`Nat`), strictly ordered as wall-clock instants. -/
structure HistoryEntry where
  hash : Option String
  name : Option String
  source : String
  added_at : Nat
  magnet : String
deriving DecidableEq

/-- The externally visible side effects of the core, in program order:
calls on the download client and writes of the two persisted stores,
plus the start of a replacement search. -/
inductive Action where
  | qbAddTorrent (magnet : String) (tags : List String)
  | saveBlacklist (hashes : List String)
  | saveHistory (entries : List HistoryEntry)
  | qbDelete (hash : String) (delete_files : Bool)
  | searchQuery (q : String)
deriving DecidableEq

/-- The mutable state `TorrentManager` carries across operations:
the blacklist set and the history log. -/
structure ManagerState where
  blacklist : Blacklist
  history : List HistoryEntry
deriving DecidableEq

/-- `TorrentManager.add_torrent` (torrent_manager.py:181-226).
`qbRes` is the outcome of the `qb_client.add_torrent` call: `.error ()`
when the client raised (the `except` clause logs and re-raises), `.ok r`
when it returned the dict `r`. `now` is the clock reading at the
`datetime.now()` call. On success the entry is appended to the history
and the history is persisted (`_add_to_history`,
torrent_manager.py:433-436); `name or result.get('name')` falls back to
the client-reported name when `name` is empty. Returns the emitted
actions and either the propagated exception or the new state plus the
returned dict. The state component is `self` after the call: on an
exception it is the state the method left behind (unchanged, since the
history append lies on the success path only). -/
def addTorrent (st : ManagerState) (magnet_link source name : String)
    (qbRes : Except Unit QbAddRes) (now : Nat) :
    List Action × ManagerState × Except Unit QbAddRes :=
  match qbRes with
  | .error e => ([Action.qbAddTorrent magnet_link [source]], st, .error e)
  | .ok res =>
    if res.success then
      let entry : HistoryEntry :=
        { hash := res.hash
          name := if name == "" then res.name else some name
          source := source
          added_at := now
          magnet := magnet_link }
      let st' := { st with history := st.history ++ [entry] }
      ([Action.qbAddTorrent magnet_link [source], Action.saveHistory st'.history],
       st', .ok res)
    else
      ([Action.qbAddTorrent magnet_link [source]], st, .ok res)

/-- The per-tick environment the monitor observes: the merged raw result
pool each query would accumulate from the enabled scrapers, whether the
client's `delete_torrent` raises for a given hash, the client's response
to an add by magnet, and the current clock. -/
structure TickEnv where
  searchPool : String → List ResultRecord
  deleteRaises : String → Bool
  qbAdd : String → Except Unit QbAddRes
  now : Nat

/-- The replacement candidates of `_find_and_add_alternative`
(torrent_manager.py:330-341): `search_torrents` with default filters
(quality `''`, sizes `0` and `float('inf')`) over the pool for the
query, filtered once more against the blacklist. -/
def replacementCandidates (cfg : Config) (env : TickEnv) (bl : Blacklist)
    (originalName : String) : List ResultRecord :=
  (searchTorrents cfg bl "" 0 ⊤ (env.searchPool originalName)).filter
    (fun r => ! hashBlacklisted bl r.hash)

/-- `TorrentManager._find_and_add_alternative`
(torrent_manager.py:328-365). Any exception inside (including one raised
by `add_torrent`) is caught by its own `except` clause, so it always
returns. The best (first) candidate is submitted only when it carries a
magnet link (`if best.get('magnet_link')`). -/
def findAndAddAlternative (cfg : Config) (env : TickEnv) (st : ManagerState)
    (originalName : String) : List Action × ManagerState :=
  let alternatives := replacementCandidates cfg env st.blacklist originalName
  match alternatives with
  | [] => ([Action.searchQuery originalName], st)
  | best :: _ =>
    match best.magnet_link with
    | none => ([Action.searchQuery originalName], st)
    | some m =>
      let r := addTorrent st m best.source best.name (env.qbAdd m) env.now
      (Action.searchQuery originalName :: r.1, r.2.1)

/-- The per-torrent body of `monitor_and_manage_torrents`
(torrent_manager.py:280-298). When condemned: `_add_to_blacklist`
(mutate the set and persist, torrent_manager.py:399-403), then
`delete_torrent(hash, delete_files=False)`, then
`_find_and_add_alternative(name)`. The returned flag records whether the
client's delete raised — that exception escapes the loop body (there is
no per-torrent handler in the source). -/
def processTorrent (cfg : Config) (env : TickEnv) (st : ManagerState)
    (t : ActiveTorrent) : List Action × ManagerState × Bool :=
  if shouldRetryTorrent cfg t then
    let bl' := setAdd st.blacklist t.hash
    let st1 := { st with blacklist := bl' }
    let acts1 := [Action.saveBlacklist (saveBlacklistDoc bl')]
    if env.deleteRaises t.hash then
      (acts1, st1, true)
    else
      let r := findAndAddAlternative cfg env st1 t.name
      (acts1 ++ [Action.qbDelete t.hash false] ++ r.1, r.2, false)
  else
    ([], st, false)

/-- The `for torrent in torrents` loop of `monitor_and_manage_torrents`:
sequential processing; an escaping exception aborts the remaining
iterations (it is then caught by the tick-level `except`). -/
def runTorrents (cfg : Config) (env : TickEnv) (st : ManagerState) :
    List ActiveTorrent → List Action × ManagerState
  | [] => ([], st)
  | t :: ts =>
    let (acts, st', raised) := processTorrent cfg env st t
    if raised then (acts, st')
    else
      let r := runTorrents cfg env st' ts
      (acts ++ r.1, r.2)

/-- `TorrentManager.monitor_and_manage_torrents`
(torrent_manager.py:275-301): one monitoring tick over the observed
torrents; the whole body is wrapped in `try/except`, so the tick always
returns normally. -/
def monitorAndManageTorrents (cfg : Config) (env : TickEnv)
    (torrents : List ActiveTorrent) (st : ManagerState) :
    List Action × ManagerState :=
  runTorrents cfg env st torrents

/-- `monitor_torrents_loop` of `server.py` (server.py:231-241): each
iteration runs one tick inside `try/except` (both branches sleep the
standard interval and continue). `envs n` / `tors n` are the environment
and the observed torrent list of the n-th iteration. Returns the state
after `n` iterations together with each iteration's action trace. -/
def monitorTorrentsLoop (cfg : Config) (envs : Nat → TickEnv)
    (tors : Nat → List ActiveTorrent) :
    Nat → ManagerState → ManagerState × List (List Action)
  | 0, st => (st, [])
  | n + 1, st =>
    let r := monitorTorrentsLoop cfg envs tors n st
    let tick := monitorAndManageTorrents cfg (envs n) (tors n) r.1
    (tick.2, r.2 ++ [tick.1])

/-! ## Concrete scenarios used as witnesses and counterexamples -/

/-- The empty manager state (fresh start: no blacklist, no history). -/
def stEmpty : ManagerState :=
  { blacklist := [], history := [] }

/-- A record sitting exactly on a size boundary. -/
def rBoundary : ResultRecord :=
  { name := "Movie X 1080p", seeds := 3, size_gb := 1, source := "1337x",
    magnet_link := some "magnet:?xt=urn:btih:aa", hash := some "aa", files := [] }

/-- A record with an empty file list whose name carries no media file
extension token. -/
def rNoExtName : ResultRecord :=
  { name := "Some Show 1080p", seeds := 10, size_gb := 1, source := "1337x",
    magnet_link := some "magnet:?xt=urn:btih:bb", hash := some "bb", files := [] }

/-- A replacement candidate that carries no magnet link. -/
def rNoMagnet : ResultRecord :=
  { name := "Movie X 1080p", seeds := 9, size_gb := 1, source := "1337x",
    magnet_link := none, hash := some "cafe", files := [] }

/-- A replacement candidate with a magnet link but no extractable hash
(e.g. the magnet's `btih` group is not 40-hex, so the scraper stored
`hash = None`). -/
def rHashless : ResultRecord :=
  { name := "Movie X 1080p", seeds := 9, size_gb := 1, source := "1337x",
    magnet_link := some "magnet:?xt=urn:btih:base32", hash := none, files := [] }

/-- First of two equal-seed records (arrives first in the merged pool). -/
def rTieA : ResultRecord :=
  { name := "Movie X 1080p WEB", seeds := 7, size_gb := 1, source := "1337x",
    magnet_link := none, hash := some "ta", files := [] }

/-- Second of two equal-seed records (arrives second). -/
def rTieB : ResultRecord :=
  { name := "Movie X 1080p BluRay", seeds := 7, size_gb := 2, source := "watchsomuch",
    magnet_link := none, hash := some "tb", files := [] }

/-- A condemned torrent (error state) whose delete succeeds. -/
def tErr : ActiveTorrent :=
  { hash := "deadbeef", name := "Movie X", state := "error", dlspeed := 0, num_seeds := 5 }

/-- A condemned torrent whose delete raises. -/
def tErrRaise : ActiveTorrent :=
  { hash := "aaaa", name := "Movie X", state := "error", dlspeed := 0, num_seeds := 5 }

/-- A second condemned torrent, after the raising one. -/
def tErr2 : ActiveTorrent :=
  { hash := "bbbb", name := "Movie Y", state := "error", dlspeed := 0, num_seeds := 5 }

/-- Environment for the C2 counterexample: the replacement search finds
one candidate, which has no magnet link; the client add would succeed. -/
def envNoMagnet : TickEnv :=
  { searchPool := fun _ => [rNoMagnet]
    deleteRaises := fun _ => false
    qbAdd := fun _ => .ok { success := true, hash := some "ffff", name := some "QB" }
    now := 7 }

/-- Environment for the C3 counterexample: the delete of `tErrRaise`
raises, every other delete succeeds, searches find nothing. -/
def envRaiseFirst : TickEnv :=
  { searchPool := fun _ => []
    deleteRaises := fun h => h == "aaaa"
    qbAdd := fun _ => .ok { success := false, hash := none, name := none }
    now := 0 }

/-- Environment for the C10 scenario: the replacement search finds one
hash-less candidate carrying a magnet link; the client add succeeds. -/
def envHashless : TickEnv :=
  { searchPool := fun _ => [rHashless]
    deleteRaises := fun _ => false
    qbAdd := fun _ => .ok { success := true, hash := some "ffff", name := some "QB" }
    now := 7 }

/-- A successful client add result. -/
def qbResOk : QbAddRes :=
  { success := true, hash := some "zz", name := some "QB" }

/-- A quiet environment: empty searches, no failures. -/
def envQuiet : TickEnv :=
  { searchPool := fun _ => []
    deleteRaises := fun _ => false
    qbAdd := fun _ => .ok { success := false, hash := none, name := none }
    now := 0 }

/-! ## Helper lemmas -/

/-- Membership in the aggregator output, decomposed: the record is in
the pool, passes the criteria filter, and is not blacklisted. -/
theorem mem_searchTorrents_iff (cfg : Config) (bl : Blacklist) (quality : String)
    (minS : ℚ) (maxS : WithTop ℚ) (pool : List ResultRecord) (r : ResultRecord) :
    r ∈ searchTorrents cfg bl quality minS maxS pool ↔
      r ∈ pool ∧ keepsRecord cfg quality minS maxS r = true ∧
        hashBlacklisted bl r.hash = false := by
  simp only [searchTorrents, filterResults, List.mem_mergeSort, List.mem_filter,
    Bool.not_eq_true', and_assoc]

/-- The criteria filter, flattened into its three conjuncts: size check,
quality check, and (only when the file list is non-empty) the media
file check. The name-based `has_video_ext` value does not occur. -/
theorem keepsRecord_eq (cfg : Config) (quality : String) (minS : ℚ)
    (maxS : WithTop ℚ) (r : ResultRecord) :
    keepsRecord cfg quality minS maxS r =
      (sizeAccept minS maxS r.size_gb &&
       (qualityAccept cfg quality r.name &&
        (r.files.isEmpty || filesHaveVideo cfg r.files))) := by
  simp only [keepsRecord]
  cases hsz : sizeAccept minS maxS r.size_gb <;>
    cases hq : qualityAccept cfg quality r.name <;>
      cases hf : r.files.isEmpty <;>
        cases hv : filesHaveVideo cfg r.files <;>
          simp [hsz, hq, hf, hv]

/-- Unfolding of the size check into its two comparisons. -/
theorem sizeAccept_iff (minS : ℚ) (maxS : WithTop ℚ) (sz : ℚ) :
    sizeAccept minS maxS sz = true ↔
      ¬ sz < minS ∧ ¬ maxS < (sz : WithTop ℚ) := by
  simp [sizeAccept, not_or]

/-! ## Theorems -/

/-- C1: `_should_retry_torrent` condemns an observed active torrent
exactly when (a) its lowercased state label contains `error` or
`missing`, or (b) it contains `stalled` and the download speed is
exactly zero, or (c) the seed count is below `MIN_SEEDS`, or (d) the
download speed is positive but below `MIN_DOWNLOAD_SPEED_KB * 1024`
bytes/s. In particular a torrent in state `error` is condemned at any
speed and seed count, a torrent in state `downloading` with speed above
the minimum throughput and seeds at or above the minimum is not
condemned, and a torrent in state `stalledDL` with speed zero is
condemned regardless of seed count. -/
theorem condemnation_predicate_characterization :
    (∀ (cfg : Config) (t : ActiveTorrent), shouldRetryTorrent cfg t = true ↔
      ((containsSub (strLower t.state) "error" = true ∨
        containsSub (strLower t.state) "missing" = true) ∨
       (containsSub (strLower t.state) "stalled" = true ∧ t.dlspeed = 0) ∨
       t.num_seeds < cfg.MIN_SEEDS ∨
       (0 < t.dlspeed ∧ t.dlspeed < cfg.MIN_DOWNLOAD_SPEED_KB * 1024))) ∧
    (∀ (cfg : Config) (h n : String) (sp sd : Nat),
      shouldRetryTorrent cfg ⟨h, n, "error", sp, sd⟩ = true) ∧
    (∀ (cfg : Config) (h n : String) (sp sd : Nat),
      cfg.MIN_SEEDS ≤ sd → cfg.MIN_DOWNLOAD_SPEED_KB * 1024 < sp →
      shouldRetryTorrent cfg ⟨h, n, "downloading", sp, sd⟩ = false) ∧
    (∀ (cfg : Config) (h n : String) (sd : Nat),
      shouldRetryTorrent cfg ⟨h, n, "stalledDL", 0, sd⟩ = true) := by
  have hiff : ∀ (cfg : Config) (t : ActiveTorrent), shouldRetryTorrent cfg t = true ↔
      ((containsSub (strLower t.state) "error" = true ∨
        containsSub (strLower t.state) "missing" = true) ∨
       (containsSub (strLower t.state) "stalled" = true ∧ t.dlspeed = 0) ∨
       t.num_seeds < cfg.MIN_SEEDS ∨
       (0 < t.dlspeed ∧ t.dlspeed < cfg.MIN_DOWNLOAD_SPEED_KB * 1024)) := by
    intro cfg t
    simp only [shouldRetryTorrent]
    split_ifs with h1 h2 h3 h4 <;>
      simp_all [Bool.or_eq_true, Bool.and_eq_true, decide_eq_true_eq, beq_iff_eq]
  refine ⟨hiff, ?_, ?_, ?_⟩
  · intro cfg h n sp sd
    rw [hiff]
    dsimp only
    exact Or.inl (Or.inl (by decide))
  · intro cfg h n sp sd hseeds hspeed
    cases hb : shouldRetryTorrent cfg ⟨h, n, "downloading", sp, sd⟩ with
    | false => rfl
    | true =>
      exfalso
      have hmp := (hiff cfg ⟨h, n, "downloading", sp, sd⟩).mp hb
      dsimp only at hmp
      rcases hmp with (he | hm) | ⟨hs, _⟩ | hlt | ⟨_, hsl⟩
      · exact absurd he (by decide)
      · exact absurd hm (by decide)
      · exact absurd hs (by decide)
      · exact absurd hlt (by omega)
      · exact absurd hsl (by omega)
  · intro cfg h n sd
    rw [hiff]
    dsimp only
    exact Or.inr (Or.inl ⟨by decide, rfl⟩)

/-- Witness for C1: concrete evaluations of the condemnation predicate
at the three particular scenarios, via the theorem. -/
theorem condemnation_predicate_characterization_witness :
    shouldRetryTorrent defaultConfig ⟨"a1", "N", "error", 0, 50⟩ = true ∧
    shouldRetryTorrent defaultConfig ⟨"a2", "N", "downloading", 999999, 5⟩ = false ∧
    shouldRetryTorrent defaultConfig ⟨"a3", "N", "stalledDL", 0, 100⟩ = true :=
  ⟨condemnation_predicate_characterization.2.1 defaultConfig "a1" "N" 0 50,
   condemnation_predicate_characterization.2.2.1 defaultConfig "a2" "N" 999999 5
     (by decide) (by decide),
   condemnation_predicate_characterization.2.2.2 defaultConfig "a3" "N" 100⟩

/-- C9: blacklist membership round-trips through persistence — after
adding `h` and reloading the stored document, `h` is a member; after
removing `h` and reloading, `h` is absent; and removing an absent hash
leaves the blacklist unchanged (removal is idempotent). -/
theorem blacklist_persistence_roundtrip :
    ∀ (bl : Blacklist) (h : String),
      h ∈ loadBlacklistDoc (saveBlacklistDoc (setAdd bl h)) ∧
      h ∉ loadBlacklistDoc (saveBlacklistDoc (setDiscard bl h)) ∧
      (h ∉ bl → setDiscard bl h = bl) := by
  intro bl h
  refine ⟨?_, ?_, ?_⟩
  · simp only [loadBlacklistDoc, saveBlacklistDoc, setAdd, List.mem_dedup]
    split_ifs with hmem
    · exact hmem
    · simp
  · simp [loadBlacklistDoc, saveBlacklistDoc, setDiscard, List.mem_dedup,
      List.mem_filter]
  · intro hnot
    simp only [setDiscard]
    apply List.filter_eq_self.mpr
    intro x hx
    simp only [Bool.not_eq_true', beq_eq_false_iff_ne, ne_eq]
    rintro rfl
    exact hnot hx

/-- Witness for C9 at a concrete blacklist and hash. -/
theorem blacklist_persistence_roundtrip_witness :
    "h1" ∈ loadBlacklistDoc (saveBlacklistDoc (setAdd ["h0"] "h1")) ∧
    "h1" ∉ loadBlacklistDoc (saveBlacklistDoc (setDiscard ["h0"] "h1")) ∧
    setDiscard ["h0"] "h1" = ["h0"] :=
  ⟨(blacklist_persistence_roundtrip ["h0"] "h1").1,
   (blacklist_persistence_roundtrip ["h0"] "h1").2.1,
   (blacklist_persistence_roundtrip ["h0"] "h1").2.2 (by decide)⟩

/-- C6: a record whose `size_gb` lies strictly outside
`[min_size_gb, max_size_gb]` never appears in aggregator output, and
both bounds are inclusive — a record whose size equals the minimum (in a
well-formed range) or equals the maximum passes the size check. -/
theorem size_filter_inclusive_bounds :
    (∀ (cfg : Config) (bl : Blacklist) (quality : String) (minS : ℚ)
        (maxS : WithTop ℚ) (pool : List ResultRecord) (r : ResultRecord),
      r ∈ searchTorrents cfg bl quality minS maxS pool →
      ¬ r.size_gb < minS ∧ ¬ maxS < (r.size_gb : WithTop ℚ)) ∧
    (∀ (minS : ℚ) (maxS : WithTop ℚ), (minS : WithTop ℚ) ≤ maxS →
      sizeAccept minS maxS minS = true) ∧
    (∀ (minS mx : ℚ), minS ≤ mx →
      sizeAccept minS (mx : WithTop ℚ) mx = true) := by
  refine ⟨?_, ?_, ?_⟩
  · intro cfg bl quality minS maxS pool r hr
    have hk := ((mem_searchTorrents_iff cfg bl quality minS maxS pool r).mp hr).2.1
    rw [keepsRecord_eq] at hk
    have hsz : sizeAccept minS maxS r.size_gb = true := by
      cases hb : sizeAccept minS maxS r.size_gb
      · rw [hb] at hk; simp at hk
      · rfl
    exact (sizeAccept_iff minS maxS r.size_gb).mp hsz
  · intro minS maxS hle
    rw [sizeAccept_iff]
    exact ⟨lt_irrefl minS, not_lt.mpr hle⟩
  · intro minS mx hle
    rw [sizeAccept_iff]
    exact ⟨not_lt.mpr hle, lt_irrefl (mx : WithTop ℚ)⟩

/-- Witness for C6: a boundary record with size exactly at the lower
bound survives to the output and both boundary checks evaluate to true. -/
theorem size_filter_inclusive_bounds_witness :
    (¬ rBoundary.size_gb < 1 ∧ ¬ ((2 : ℚ) : WithTop ℚ) < (rBoundary.size_gb : WithTop ℚ)) ∧
    sizeAccept 1 ((2 : ℚ) : WithTop ℚ) 1 = true ∧
    sizeAccept 1 ((2 : ℚ) : WithTop ℚ) 2 = true :=
  ⟨size_filter_inclusive_bounds.1 defaultConfig [] "" 1 ((2 : ℚ) : WithTop ℚ)
      [rBoundary] rBoundary
      (by simp [searchTorrents, filterResults, keepsRecord, sizeAccept, qualityAccept,
        hashBlacklisted, rBoundary, List.mergeSort_singleton]),
   size_filter_inclusive_bounds.2.1 1 ((2 : ℚ) : WithTop ℚ)
      (by exact_mod_cast (by norm_num : (1 : ℚ) ≤ 2)),
   size_filter_inclusive_bounds.2.2 1 2 (by norm_num)⟩

/-- Counterexample to C7: a record with an empty file list whose name
contains no media extension token is NOT dropped — it appears in the
aggregator output, because the name-based `has_video_ext` value is
computed but never used to gate the record. -/
theorem media_filter_name_fallback_counterexample :
    rNoExtName.files = [] ∧
    hasVideoExtName defaultConfig rNoExtName.name = false ∧
    searchTorrents defaultConfig [] "" 0 ⊤ [rNoExtName] = [rNoExtName] := by
  refine ⟨rfl, by decide, ?_⟩
  simp [searchTorrents, filterResults, keepsRecord, sizeAccept, qualityAccept,
    hashBlacklisted, rNoExtName, List.mergeSort_singleton]

/-- C7 as amended: when the file list is non-empty the record is kept
only if at least one file name contains a recognized media extension
(case-insensitive); when the file list is absent or empty the record is
kept whenever it passes the size and quality checks — the name-based
media-extension value is computed but never applied, so the filter is
permissive in that case. -/
theorem media_filter_permissive_when_no_files :
    ∀ (cfg : Config) (quality : String) (minS : ℚ) (maxS : WithTop ℚ)
      (r : ResultRecord),
      (r.files ≠ [] →
        (keepsRecord cfg quality minS maxS r = true ↔
          sizeAccept minS maxS r.size_gb = true ∧
          qualityAccept cfg quality r.name = true ∧
          filesHaveVideo cfg r.files = true)) ∧
      (r.files = [] →
        (keepsRecord cfg quality minS maxS r = true ↔
          sizeAccept minS maxS r.size_gb = true ∧
          qualityAccept cfg quality r.name = true)) := by
  intro cfg quality minS maxS r
  constructor
  · intro hne
    rw [keepsRecord_eq]
    have hf : r.files.isEmpty = false := by
      simpa [List.isEmpty_iff] using hne
    simp [hf]
  · intro he
    rw [keepsRecord_eq]
    simp [he]

/-- Witness for the amended C7 at a concrete empty-file-list record. -/
theorem media_filter_permissive_when_no_files_witness :
    keepsRecord defaultConfig "" 0 ⊤ rNoExtName = true ↔
      sizeAccept 0 ⊤ rNoExtName.size_gb = true ∧
      qualityAccept defaultConfig "" rNoExtName.name = true :=
  (media_filter_permissive_when_no_files defaultConfig "" 0 ⊤ rNoExtName).2 rfl

/-- C5: no record whose hash is in the blacklist snapshot used by a
search appears in the aggregator's output. -/
theorem blacklisted_never_in_output :
    ∀ (cfg : Config) (bl : Blacklist) (quality : String) (minS : ℚ)
      (maxS : WithTop ℚ) (pool : List ResultRecord) (r : ResultRecord) (h : String),
      r ∈ searchTorrents cfg bl quality minS maxS pool → r.hash = some h →
      h ∉ bl := by
  intro cfg bl quality minS maxS pool r h hr hh
  have hb := ((mem_searchTorrents_iff cfg bl quality minS maxS pool r).mp hr).2.2
  rw [hh] at hb
  simpa [hashBlacklisted] using hb

/-- Witness for C5: a concrete surviving record's hash is not in the
concrete blacklist. -/
theorem blacklisted_never_in_output_witness :
    "aa" ∉ ["zz"] :=
  blacklisted_never_in_output defaultConfig ["zz"] "" 0 ⊤ [rBoundary] rBoundary "aa"
    (by simp [searchTorrents, filterResults, keepsRecord, sizeAccept, qualityAccept,
      hashBlacklisted, rBoundary, List.mergeSort_singleton])
    rfl

/-- C10: blacklist filtering removes a record only when its own hash
value is a blacklist member — a record whose hash is absent/None is
never removed by it (in `search_torrents` and in the replacement path),
passes through to the ranked output, and can be selected and submitted
as a replacement candidate regardless of the blacklist's contents. -/
theorem hashless_records_pass_blacklist :
    (∀ bl : Blacklist, hashBlacklisted bl none = false) ∧
    (∀ (cfg : Config) (bl : Blacklist) (quality : String) (minS : ℚ)
        (maxS : WithTop ℚ) (pool : List ResultRecord) (r : ResultRecord),
      r ∈ pool → r.hash = none → keepsRecord cfg quality minS maxS r = true →
      r ∈ searchTorrents cfg bl quality minS maxS pool) ∧
    (replacementCandidates defaultConfig envHashless ["cafe", "deadbeef"]
        "Movie X" = [rHashless] ∧
     Action.qbAddTorrent "magnet:?xt=urn:btih:base32" ["1337x"] ∈
       (findAndAddAlternative defaultConfig envHashless
          { blacklist := ["cafe", "deadbeef"], history := [] } "Movie X").1) := by
  refine ⟨fun _ => rfl, ?_, ?_, ?_⟩
  · intro cfg bl quality minS maxS pool r hmem hnone hkeep
    exact (mem_searchTorrents_iff cfg bl quality minS maxS pool r).mpr
      ⟨hmem, hkeep, by rw [hnone]; rfl⟩
  · simp [replacementCandidates, searchTorrents, filterResults, keepsRecord,
      sizeAccept, qualityAccept, hashBlacklisted, rHashless, envHashless,
      List.mergeSort_singleton]
  · simp [findAndAddAlternative, replacementCandidates, searchTorrents,
      filterResults, keepsRecord, sizeAccept, qualityAccept, hashBlacklisted,
      rHashless, envHashless, addTorrent, List.mergeSort_singleton]

/-- Witness for C10: the hash-less record passes the full search against
a non-empty blacklist. -/
theorem hashless_records_pass_blacklist_witness :
    rHashless ∈ searchTorrents defaultConfig ["cafe"] "" 0 ⊤ [rHashless] :=
  hashless_records_pass_blacklist.2.1 defaultConfig ["cafe"] "" 0 ⊤ [rHashless]
    rHashless (by simp) rfl
    (by simp [keepsRecord, sizeAccept, qualityAccept, rHashless])

/-- C4: the aggregator's output is sorted by seed count descending, and
any two surviving records with equal seed counts keep the relative order
they had in the merged input pool (the sort is stable). -/
theorem aggregator_sorted_and_stable :
    ∀ (cfg : Config) (bl : Blacklist) (quality : String) (minS : ℚ)
      (maxS : WithTop ℚ) (pool : List ResultRecord),
      (searchTorrents cfg bl quality minS maxS pool).Pairwise
        (fun a b => b.seeds ≤ a.seeds) ∧
      (∀ a b : ResultRecord, [a, b].Sublist pool → a.seeds = b.seeds →
        keepsRecord cfg quality minS maxS a = true →
        hashBlacklisted bl a.hash = false →
        keepsRecord cfg quality minS maxS b = true →
        hashBlacklisted bl b.hash = false →
        [a, b].Sublist (searchTorrents cfg bl quality minS maxS pool)) := by
  intro cfg bl quality minS maxS pool
  have htrans : ∀ a b c : ResultRecord,
      seedsDescLE a b → seedsDescLE b c → seedsDescLE a c := by
    intro a b c h1 h2
    simp only [seedsDescLE, decide_eq_true_eq] at h1 h2 ⊢
    omega
  have htotal : ∀ a b : ResultRecord, seedsDescLE a b || seedsDescLE b a := by
    intro a b
    simp only [seedsDescLE, Bool.or_eq_true, decide_eq_true_eq]
    omega
  constructor
  · simp only [searchTorrents]
    exact (List.sorted_mergeSort htrans htotal _).imp
      (fun h => by simpa [seedsDescLE] using h)
  · intro a b hsub heq ka ba kb bb
    simp only [searchTorrents, filterResults]
    rw [List.filter_filter]
    apply List.sublist_mergeSort htrans htotal
    · refine List.pairwise_cons.mpr ⟨?_, List.pairwise_singleton _ _⟩
      intro c hc
      rw [List.mem_singleton] at hc
      subst hc
      simp only [seedsDescLE, decide_eq_true_eq]
      omega
    · have hf := hsub.filter
        (fun r => !hashBlacklisted bl r.hash && keepsRecord cfg quality minS maxS r)
      simpa [ka, kb, ba, bb] using hf

/-- Witness for C4's stability clause: two concrete equal-seed records
fed in order survive in order. -/
theorem aggregator_sorted_and_stable_witness :
    [rTieA, rTieB].Sublist (searchTorrents defaultConfig [] "" 0 ⊤ [rTieA, rTieB]) :=
  (aggregator_sorted_and_stable defaultConfig [] "" 0 ⊤ [rTieA, rTieB]).2
    rTieA rTieB (List.Sublist.refl _) rfl
    (by simp [keepsRecord, sizeAccept, qualityAccept, rTieA]) rfl
    (by simp [keepsRecord, sizeAccept, qualityAccept, rTieB]) rfl

/-- C8: when the client reports success, `add_torrent` appends exactly
one new history entry — carrying the reported hash, the given (or
client-reported) name, the source, the magnet, and a timestamp taken
between the call's start and return — and leaves existing entries and
the blacklist untouched; when the client reports failure or raises, the
state (in particular the history) is unchanged. -/
theorem add_torrent_history_semantics :
    ∀ (st : ManagerState) (magnet source name : String) (res : QbAddRes)
      (now tStart tEnd : Nat),
      tStart ≤ now → now ≤ tEnd →
      (res.success = true →
        ∃ entry : HistoryEntry,
          (addTorrent st magnet source name (.ok res) now).2.1.history =
            st.history ++ [entry] ∧
          (addTorrent st magnet source name (.ok res) now).2.1.blacklist =
            st.blacklist ∧
          entry.hash = res.hash ∧
          entry.name = (if name == "" then res.name else some name) ∧
          entry.source = source ∧
          entry.magnet = magnet ∧
          entry.added_at = now ∧
          tStart ≤ entry.added_at ∧ entry.added_at ≤ tEnd) ∧
      (res.success = false →
        (addTorrent st magnet source name (.ok res) now).2.1 = st) ∧
      ((addTorrent st magnet source name (.error ()) now).2.1 = st ∧
       (addTorrent st magnet source name (.error ()) now).2.2 = .error ()) := by
  intro st magnet source name res now tStart tEnd h1 h2
  refine ⟨?_, ?_, rfl, rfl⟩
  · intro hs
    refine ⟨{ hash := res.hash, name := if name == "" then res.name else some name,
              source := source, added_at := now, magnet := magnet },
            ?_, ?_, rfl, rfl, rfl, rfl, rfl, h1, h2⟩
    · simp [addTorrent, hs]
    · simp [addTorrent, hs]
  · intro hs
    simp [addTorrent, hs]

/-- Witness for C8 at a concrete successful submission. -/
theorem add_torrent_history_semantics_witness :
    ∃ entry : HistoryEntry,
      (addTorrent stEmpty "m" "1337x" "" (.ok qbResOk) 5).2.1.history =
        stEmpty.history ++ [entry] ∧
      (addTorrent stEmpty "m" "1337x" "" (.ok qbResOk) 5).2.1.blacklist =
        stEmpty.blacklist ∧
      entry.hash = qbResOk.hash ∧
      entry.name = (if ("" : String) == "" then qbResOk.name else some "") ∧
      entry.source = "1337x" ∧
      entry.magnet = "m" ∧
      entry.added_at = 5 ∧
      4 ≤ entry.added_at ∧ entry.added_at ≤ 6 :=
  (add_torrent_history_semantics stEmpty "m" "1337x" "" qbResOk 5 4 6
    (by decide) (by decide)).1 rfl

/-- Helper: the action trace of `add_torrent` always contains the
client add call. -/
theorem addTorrent_acts_mem (st : ManagerState) (m source name : String)
    (qbRes : Except Unit QbAddRes) (now : Nat) :
    Action.qbAddTorrent m [source] ∈ (addTorrent st m source name qbRes now).1 := by
  cases qbRes with
  | error e => simp [addTorrent]
  | ok res =>
    by_cases hs : res.success = true
    · simp [addTorrent, hs]
    · simp [addTorrent, hs]

/-- Helper: no replacement candidate carries the hash of a torrent that
is in the blacklist the candidates were filtered against. -/
theorem replacementCandidates_no_blacklisted (cfg : Config) (env : TickEnv)
    (bl : Blacklist) (q : String) (r : ResultRecord) (h : String) :
    r ∈ replacementCandidates cfg env bl q → h ∈ bl → r.hash ≠ some h := by
  intro hr hbl hhash
  have hflt := (List.mem_filter.mp hr).2
  rw [hhash] at hflt
  simp [hashBlacklisted, hbl] at hflt

/-- Counterexample to C2's submission clause: a condemned torrent whose
replacement search leaves a (non-empty) candidate list headed by a
record without a magnet link results in NO submission — `add_torrent` is
never called, although a candidate remains. -/
theorem condemnation_submission_counterexample :
    shouldRetryTorrent defaultConfig tErr = true ∧
    replacementCandidates defaultConfig envNoMagnet
      (setAdd stEmpty.blacklist tErr.hash) tErr.name ≠ [] ∧
    (∀ m tags, Action.qbAddTorrent m tags ∉
      (processTorrent defaultConfig envNoMagnet stEmpty tErr).1) := by
  have hc : shouldRetryTorrent defaultConfig tErr = true := by decide
  refine ⟨hc, ?_, ?_⟩
  · simp [replacementCandidates, searchTorrents, filterResults, keepsRecord,
      sizeAccept, qualityAccept, hashBlacklisted, rNoMagnet, envNoMagnet,
      setAdd, stEmpty, tErr, List.mergeSort_singleton]
  · intro m tags
    have hh : tErr.hash = "deadbeef" := rfl
    have hn : tErr.name = "Movie X" := rfl
    simp [processTorrent, hc, hh, hn, findAndAddAlternative, replacementCandidates,
      searchTorrents, filterResults, keepsRecord, sizeAccept, qualityAccept,
      hashBlacklisted, rNoMagnet, envNoMagnet, setAdd, stEmpty,
      saveBlacklistDoc, List.mergeSort_singleton]

/-- C2 as amended: when a monitored torrent is condemned during a tick
(and the client's delete does not raise), the tick adds its hash to the
blacklist and persists it, deletes the torrent with
`delete_files=False`, and then runs the replacement search with the
condemned torrent's name as query — in that order; the condemned hash is
in the blacklist before the search, so it is never among the
candidates. If a candidate remains AND the highest-ranked (first,
most-seeded) candidate carries a magnet link, that candidate is
submitted via `add_torrent`; if the first candidate lacks a magnet link
(or no candidate remains), no submission is made. -/
theorem condemnation_replacement_flow :
    ∀ (cfg : Config) (env : TickEnv) (st : ManagerState) (t : ActiveTorrent),
      shouldRetryTorrent cfg t = true →
      env.deleteRaises t.hash = false →
      t.hash ∈ setAdd st.blacklist t.hash ∧
      (∀ r ∈ replacementCandidates cfg env (setAdd st.blacklist t.hash) t.name,
        r.hash ≠ some t.hash) ∧
      (∃ rest, (processTorrent cfg env st t).1 =
        Action.saveBlacklist (saveBlacklistDoc (setAdd st.blacklist t.hash)) ::
        Action.qbDelete t.hash false ::
        Action.searchQuery t.name :: rest) ∧
      (match replacementCandidates cfg env (setAdd st.blacklist t.hash) t.name with
       | [] => ∀ m tags, Action.qbAddTorrent m tags ∉ (processTorrent cfg env st t).1
       | best :: _ =>
         match best.magnet_link with
         | some m =>
           Action.qbAddTorrent m [best.source] ∈ (processTorrent cfg env st t).1
         | none =>
           ∀ m tags, Action.qbAddTorrent m tags ∉ (processTorrent cfg env st t).1) := by
  intro cfg env st t hc hd
  have hmem : t.hash ∈ setAdd st.blacklist t.hash := by
    simp only [setAdd]
    split_ifs with hin
    · exact hin
    · simp
  have hproc : (processTorrent cfg env st t).1 =
      Action.saveBlacklist (saveBlacklistDoc (setAdd st.blacklist t.hash)) ::
      Action.qbDelete t.hash false ::
      (findAndAddAlternative cfg env
        { st with blacklist := setAdd st.blacklist t.hash } t.name).1 := by
    simp [processTorrent, hc, hd]
  refine ⟨hmem, ?_, ?_, ?_⟩
  · intro r hr
    exact replacementCandidates_no_blacklisted cfg env _ t.name r t.hash hr hmem
  · rw [hproc]
    rcases hcand : replacementCandidates cfg env (setAdd st.blacklist t.hash) t.name
      with _ | ⟨best, others⟩
    · refine ⟨[], ?_⟩
      simp [findAndAddAlternative, hcand]
    · rcases hmag : best.magnet_link with _ | m
      · refine ⟨[], ?_⟩
        simp [findAndAddAlternative, hcand, hmag]
      · refine ⟨(addTorrent { st with blacklist := setAdd st.blacklist t.hash }
          m best.source best.name (env.qbAdd m) env.now).1, ?_⟩
        simp [findAndAddAlternative, hcand, hmag]
  · rcases hcand : replacementCandidates cfg env (setAdd st.blacklist t.hash) t.name
      with _ | ⟨best, others⟩
    · simp only [hcand]
      intro m tags
      rw [hproc]
      simp [findAndAddAlternative, hcand]
    · rcases hmag : best.magnet_link with _ | m
      · simp only [hcand, hmag]
        intro m tags
        rw [hproc]
        simp [findAndAddAlternative, hcand, hmag]
      · simp only [hcand, hmag]
        rw [hproc]
        simp only [findAndAddAlternative, hcand, hmag]
        have hmm := addTorrent_acts_mem
          { st with blacklist := setAdd st.blacklist t.hash }
          m best.source best.name (env.qbAdd m) env.now
        exact List.mem_cons_of_mem _ (List.mem_cons_of_mem _
          (List.mem_cons_of_mem _ hmm))

/-- Witness for the amended C2: the condemned torrent's hash enters the
blacklist, the ordered actions appear, and (the search finding nothing)
no submission is made. -/
theorem condemnation_replacement_flow_witness :
    tErr.hash ∈ setAdd stEmpty.blacklist tErr.hash ∧
    (∀ r ∈ replacementCandidates defaultConfig envQuiet
        (setAdd stEmpty.blacklist tErr.hash) tErr.name, r.hash ≠ some tErr.hash) ∧
    (∃ rest, (processTorrent defaultConfig envQuiet stEmpty tErr).1 =
      Action.saveBlacklist (saveBlacklistDoc (setAdd stEmpty.blacklist tErr.hash)) ::
      Action.qbDelete tErr.hash false ::
      Action.searchQuery tErr.name :: rest) ∧
    (match replacementCandidates defaultConfig envQuiet
        (setAdd stEmpty.blacklist tErr.hash) tErr.name with
     | [] => ∀ m tags, Action.qbAddTorrent m tags ∉
         (processTorrent defaultConfig envQuiet stEmpty tErr).1
     | best :: _ =>
       match best.magnet_link with
       | some m => Action.qbAddTorrent m [best.source] ∈
           (processTorrent defaultConfig envQuiet stEmpty tErr).1
       | none => ∀ m tags, Action.qbAddTorrent m tags ∉
           (processTorrent defaultConfig envQuiet stEmpty tErr).1) :=
  condemnation_replacement_flow defaultConfig envQuiet stEmpty tErr (by decide) rfl

/-- Counterexample to C3's per-torrent isolation: two condemned torrents
in one tick; deleting the first raises, and the second — although
condemned and deletable — is never evaluated in that tick: the trace
stops at the first torrent's blacklist write and contains no action for
the second. -/
theorem per_torrent_isolation_counterexample :
    shouldRetryTorrent defaultConfig tErr2 = true ∧
    envRaiseFirst.deleteRaises tErr2.hash = false ∧
    (monitorAndManageTorrents defaultConfig envRaiseFirst
      [tErrRaise, tErr2] stEmpty).1 = [Action.saveBlacklist ["aaaa"]] ∧
    Action.qbDelete "bbbb" false ∉
      (monitorAndManageTorrents defaultConfig envRaiseFirst
        [tErrRaise, tErr2] stEmpty).1 := by
  have hc1 : shouldRetryTorrent defaultConfig tErrRaise = true := by decide
  have hh : tErrRaise.hash = "aaaa" := rfl
  have htrace : (monitorAndManageTorrents defaultConfig envRaiseFirst
      [tErrRaise, tErr2] stEmpty).1 = [Action.saveBlacklist ["aaaa"]] := by
    simp [monitorAndManageTorrents, runTorrents, processTorrent, hc1, hh,
      envRaiseFirst, setAdd, stEmpty, saveBlacklistDoc]
  refine ⟨by decide, rfl, htrace, ?_⟩
  rw [htrace]
  simp

/-- C3 as amended: failures inside a tick are caught at the tick level,
not per torrent — an exception raised while handling one torrent (e.g.
by the client's delete) ends that tick's evaluation, so the remaining
torrents of the same tick are skipped; but the tick itself returns
normally, and the monitor loop performs exactly one tick per iteration
forever (a failed tick never terminates the loop; the next tick starts
from the state the failed tick left). -/
theorem tick_failure_containment :
    (∀ (cfg : Config) (env : TickEnv) (st : ManagerState) (t : ActiveTorrent)
        (ts : List ActiveTorrent),
      (processTorrent cfg env st t).2.2 = true →
      monitorAndManageTorrents cfg env (t :: ts) st =
        ((processTorrent cfg env st t).1, (processTorrent cfg env st t).2.1)) ∧
    (∀ (cfg : Config) (envs : Nat → TickEnv) (tors : Nat → List ActiveTorrent)
        (st : ManagerState) (n : Nat),
      (monitorTorrentsLoop cfg envs tors n st).2.length = n) ∧
    (∀ (cfg : Config) (envs : Nat → TickEnv) (tors : Nat → List ActiveTorrent)
        (st : ManagerState) (n : Nat),
      (monitorTorrentsLoop cfg envs tors (n + 1) st).2 =
        (monitorTorrentsLoop cfg envs tors n st).2 ++
          [(monitorAndManageTorrents cfg (envs n) (tors n)
              (monitorTorrentsLoop cfg envs tors n st).1).1]) := by
  refine ⟨?_, ?_, ?_⟩
  · intro cfg env st t ts hraise
    simp only [monitorAndManageTorrents, runTorrents]
    rcases hp : processTorrent cfg env st t with ⟨acts, st', raised⟩
    have hr : raised = true := by
      rw [hp] at hraise
      exact hraise
    subst hr
    simp [hp]
  · intro cfg envs tors st n
    induction n with
    | zero => rfl
    | succ k ih => simp [monitorTorrentsLoop, ih]
  · intro cfg envs tors st n
    simp [monitorTorrentsLoop]

/-- Witness for the amended C3: the concrete raising tick equals the
first torrent's truncated processing. -/
theorem tick_failure_containment_witness :
    monitorAndManageTorrents defaultConfig envRaiseFirst [tErrRaise, tErr2] stEmpty =
      ((processTorrent defaultConfig envRaiseFirst stEmpty tErrRaise).1,
       (processTorrent defaultConfig envRaiseFirst stEmpty tErrRaise).2.1) :=
  tick_failure_containment.1 defaultConfig envRaiseFirst stEmpty tErrRaise [tErr2]
    (by decide)

end FirstMate
